import Mathlib

/-!
Verification of the go-benchmarks library (github.com/janpfeifer/go-benchmarks)
against its natural-language specification.

The embedding models:
* `prettyprint.go` : the duration pretty-printer (`PrettyPrint`);
* `benchmarks.go`  : the `Options` configuration record, its chainable setters,
  the per-function collection loop (`benchmarkOneFunc`) and the report
  assembly (`Done`), with the wall clock mocked: the elapsed time of every
  timed invocation is supplied as an explicit list of nanosecond values;
* the quantile estimator of `github.com/streadway/quantile`, whose source is
  not part of this repository, modelled from the specification (see
  `Estimator` below).

Go's `time.Duration` and `int` are 64-bit integers; they are modelled as `ℤ`
(no benchmark ever approaches the 2^63 overflow boundary, so wrap-around is
not modelled).  Go's `float64` values that flow through the estimator and the
one-decimal formatting are modelled as exact rationals `ℚ`; the concrete
inputs appearing in the claims are small enough that binary-double rounding
and exact-rational rounding agree on them.
-/

namespace GoBench

/-! ## Go arithmetic and string-formatting primitives -/

/-- Go's integer division (`/` on `int64` / `time.Duration`) truncates toward
zero, which is `Int.tdiv`. -/
def goDivInt (a b : ℤ) : ℤ := Int.tdiv a b

/-- Floor of a nonnegative rational as a natural number, written so that the
kernel can evaluate it (`Nat.floor` on `ℚ` does not reduce definitionally).
For `0 ≤ x` this agrees with `⌊x⌋₊`. -/
def qNatFloor (x : ℚ) : ℕ := (x.num / (x.den : ℤ)).toNat

/-- Go's `int(f)` conversion from `float64` truncates toward zero. -/
def goTruncQ (x : ℚ) : ℤ :=
  if 0 ≤ x then (qNatFloor x : ℤ) else -(qNatFloor (-x) : ℤ)

/-- A run of `n` spaces (`strings.Repeat(" ", n)`). -/
def spaces (n : ℕ) : String := String.mk (List.replicate n ' ')

/-- Left zero-padding to a minimum width, as Go's `%0<w>d` / `%0<w>.1f` do for
the nonnegative values that reach them in this code. -/
def zeroPadLeft (w : ℕ) (s : String) : String :=
  if s.length < w then String.mk (List.replicate (w - s.length) '0') ++ s else s

/-- Go's `%*s`: right-align to a minimum number of runes when the width is
nonnegative, left-align when it is negative. -/
def goAlign (w : ℤ) (s : String) : String :=
  if 0 ≤ w then
    (if s.length < w.toNat then spaces (w.toNat - s.length) ++ s else s)
  else
    (if s.length < (-w).toNat then s ++ spaces ((-w).toNat - s.length) else s)

/-- Round a rational to the nearest integer, ties to even — the rounding Go's
`strconv` applies when formatting with `%.1f` (applied here to the exact
rational value standing in for the `float64`). -/
def roundHalfToEven (x : ℚ) : ℤ :=
  let f : ℤ := x.num / (x.den : ℤ)
  let r : ℚ := x - (f : ℚ)
  if r < 1/2 then f
  else if 1/2 < r then f + 1
  else if f % 2 = 0 then f else f + 1

/-- Go's `%.1f` applied to a nonnegative value: one decimal digit after the
point. -/
def goFmtOneDecimal (x : ℚ) : String :=
  toString (roundHalfToEven (x * 10) / 10) ++ "." ++ toString (roundHalfToEven (x * 10) % 10)

/-! ## prettyprint.go

`time.Duration` constants in nanoseconds:
microsecond = 1000, millisecond = 10^6, second = 10^9,
minute = 6·10^10, hour = 36·10^11, day = 864·10^11. -/

/-- Embedding of `PrettyPrint` (prettyprint.go), branch for branch.  The
argument is the duration in nanoseconds (`time.Duration` is an `int64` count
of nanoseconds, and `int(d/time.Nanosecond) = d`). -/
def PrettyPrint (d : ℤ) : String :=
  if d < 1000 then toString d ++ "ns"
  else if d < 1000000 then goFmtOneDecimal ((d : ℚ) / 1000) ++ "µs"
  else if d < 1000000000 then goFmtOneDecimal ((d : ℚ) / 1000000) ++ "ms"
  else if d < 300000000000 then goFmtOneDecimal ((d : ℚ) / 1000000000) ++ "s"
  else if d < 3600000000000 then
    toString (goDivInt d 60000000000) ++ "m" ++
      zeroPadLeft 4 (goFmtOneDecimal
        (((d - goDivInt d 60000000000 * 60000000000 : ℤ) : ℚ) / 1000000000)) ++ "s"
  else if d < 86400000000000 then
    toString (goDivInt d 3600000000000) ++ "h" ++
      zeroPadLeft 2 (toString (goDivInt (d - goDivInt d 3600000000000 * 3600000000000) 60000000000)) ++ "m" ++
      zeroPadLeft 2 (toString (goDivInt
        (d - goDivInt d 3600000000000 * 3600000000000 -
          goDivInt (d - goDivInt d 3600000000000 * 3600000000000) 60000000000 * 60000000000)
        1000000000)) ++ "s"
  else
    toString (goDivInt d 86400000000000) ++ "d " ++
      toString (goDivInt (d - goDivInt d 86400000000000 * 86400000000000) 3600000000000) ++ "h" ++
      zeroPadLeft 2 (toString (goDivInt
        (d - goDivInt d 86400000000000 * 86400000000000 -
          goDivInt (d - goDivInt d 86400000000000 * 86400000000000) 3600000000000 * 3600000000000)
        60000000000)) ++ "m" ++
      zeroPadLeft 2 (toString (goDivInt
        (d - goDivInt d 86400000000000 * 86400000000000 -
          goDivInt (d - goDivInt d 86400000000000 * 86400000000000) 3600000000000 * 3600000000000 -
          goDivInt
            (d - goDivInt d 86400000000000 * 86400000000000 -
              goDivInt (d - goDivInt d 86400000000000 * 86400000000000) 3600000000000 * 3600000000000)
            60000000000 * 60000000000)
        1000000000)) ++ "s"

/-- The duration formatter as the specification words it (§6, "Exact
breakpoints"): unit chosen by magnitude, remainders written with Euclidean
`/` and `%`.  This definition follows the spec's sentence and is compared
with the source-derived `PrettyPrint` in the claim-C6 theorem. -/
def prettyPrintSpec (d : ℤ) : String :=
  if d < 1000 then toString d ++ "ns"
  else if d < 1000000 then goFmtOneDecimal ((d : ℚ) / 1000) ++ "µs"
  else if d < 1000000000 then goFmtOneDecimal ((d : ℚ) / 1000000) ++ "ms"
  else if d < 300000000000 then goFmtOneDecimal ((d : ℚ) / 1000000000) ++ "s"
  else if d < 3600000000000 then
    toString (d / 60000000000) ++ "m" ++
      zeroPadLeft 4 (goFmtOneDecimal (((d % 60000000000 : ℤ) : ℚ) / 1000000000)) ++ "s"
  else if d < 86400000000000 then
    toString (d / 3600000000000) ++ "h" ++
      zeroPadLeft 2 (toString (d % 3600000000000 / 60000000000)) ++ "m" ++
      zeroPadLeft 2 (toString (d % 3600000000000 % 60000000000 / 1000000000)) ++ "s"
  else
    toString (d / 86400000000000) ++ "d " ++
      toString (d % 86400000000000 / 3600000000000) ++ "h" ++
      zeroPadLeft 2 (toString (d % 86400000000000 % 3600000000000 / 60000000000)) ++ "m" ++
      zeroPadLeft 2 (toString (d % 86400000000000 % 3600000000000 % 60000000000 / 1000000000)) ++ "s"

/-! ### Bridging lemmas between Go's truncating arithmetic and `ediv`/`emod` -/

theorem goDivInt_eq_ediv {a b : ℤ} (ha : 0 ≤ a) (hb : 0 ≤ b) : goDivInt a b = a / b :=
  Int.tdiv_eq_ediv ha hb

theorem sub_ediv_mul_eq_emod (a b : ℤ) : a - a / b * b = a % b := by
  rw [Int.emod_def]; ring

/-- Claim C6: for every non-negative duration `d`, `PrettyPrint d` selects its
format by the stated exact breakpoints (<1µs integer nanoseconds; <1ms
one-decimal microseconds; <1s one-decimal milliseconds; <5min one-decimal
seconds; <1hour m/s form with seconds one-decimal zero-padded to width 4;
<24h h/m/s with minutes and seconds zero-padded to 2; ≥24h days then h/m/s),
i.e. it agrees with the spec-worded formatter `prettyPrintSpec`, and it
satisfies the seven literal cases of the specification. -/
theorem prettyPrint_breakpoints_and_literal_cases :
    (∀ d : ℤ, 0 ≤ d → PrettyPrint d = prettyPrintSpec d) ∧
    PrettyPrint 123 = "123ns" ∧
    PrettyPrint 1270 = "1.3µs" ∧
    PrettyPrint 1230000 = "1.2ms" ∧
    PrettyPrint 180280000000 = "180.3s" ∧
    PrettyPrint 307200000000 = "5m07.2s" ∧
    PrettyPrint 11107200000000 = "3h05m07s" ∧
    PrettyPrint 8651107200000000 = "100d 3h05m07s" := by
  refine ⟨?_, by with_unfolding_all decide, by with_unfolding_all decide,
    by with_unfolding_all decide, by with_unfolding_all decide,
    by with_unfolding_all decide, by with_unfolding_all decide,
    by with_unfolding_all decide⟩
  intro d hd
  unfold PrettyPrint prettyPrintSpec
  split_ifs
  · rfl
  · rfl
  · rfl
  · rfl
  · rw [goDivInt_eq_ediv hd (by norm_num : (0:ℤ) ≤ 60000000000),
      sub_ediv_mul_eq_emod]
  · rw [goDivInt_eq_ediv hd (by norm_num : (0:ℤ) ≤ 3600000000000),
      sub_ediv_mul_eq_emod,
      goDivInt_eq_ediv (Int.emod_nonneg d (by norm_num : (3600000000000:ℤ) ≠ 0))
        (by norm_num : (0:ℤ) ≤ 60000000000),
      sub_ediv_mul_eq_emod,
      goDivInt_eq_ediv (Int.emod_nonneg _ (by norm_num : (60000000000:ℤ) ≠ 0))
        (by norm_num : (0:ℤ) ≤ 1000000000)]
  · rw [goDivInt_eq_ediv hd (by norm_num : (0:ℤ) ≤ 86400000000000),
      sub_ediv_mul_eq_emod,
      goDivInt_eq_ediv (Int.emod_nonneg d (by norm_num : (86400000000000:ℤ) ≠ 0))
        (by norm_num : (0:ℤ) ≤ 3600000000000),
      sub_ediv_mul_eq_emod,
      goDivInt_eq_ediv (Int.emod_nonneg _ (by norm_num : (3600000000000:ℤ) ≠ 0))
        (by norm_num : (0:ℤ) ≤ 60000000000),
      sub_ediv_mul_eq_emod,
      goDivInt_eq_ediv (Int.emod_nonneg _ (by norm_num : (60000000000:ℤ) ≠ 0))
        (by norm_num : (0:ℤ) ≤ 1000000000)]

/-- Witness for claim C6 at the concrete input 123ns. -/
theorem prettyPrint_breakpoints_witness : PrettyPrint 123 = prettyPrintSpec 123 :=
  prettyPrint_breakpoints_and_literal_cases.1 123 (by decide)

/-- Claim C9: for every strictly negative duration `d`, `PrettyPrint d` does
not fail: `d` falls into the first branch (`d < 1µs`) and the result is the
integer-nanosecond format applied to the negative value; in particular
`-500ns` yields `"-500ns"`. -/
theorem prettyPrint_negative_durations :
    (∀ d : ℤ, d < 0 → PrettyPrint d = toString d ++ "ns") ∧
    PrettyPrint (-500) = "-500ns" := by
  constructor
  · intro d hd
    unfold PrettyPrint
    rw [if_pos (show d < 1000 by omega)]
  · with_unfolding_all decide

/-- Witness for claim C9 at the concrete input -500ns. -/
theorem prettyPrint_negative_witness : PrettyPrint (-500) = toString (-500 : ℤ) ++ "ns" :=
  prettyPrint_negative_durations.1 (-500) (by decide)

/-! ## The quantile estimator -/

/-- Modelled from the spec: the quantile estimator used by `benchmarkOneFunc`
comes from the external package `github.com/streadway/quantile`, whose source
is not part of this repository.  Following §4.1 "Quantile Estimator", it is
constructed from a set of (quantile, tolerance) pairs, ingests a stream of
numbers one `add` at a time (incrementing a total-sample counter), and `get q`
answers the value at approximately quantile `q` of the ingested samples.  The
compression of the internal buffer is described as opportunistic ("adjacent
tuples are periodically merged ... whenever the combined uncertainty of
merging them still satisfies every quantile's tolerance"), so a model that
retains every sample is a valid instance of the described structure; `get q`
answers the retained sample at 0-based position `⌊q·N⌋` of the
sorted sample list. -/
structure Estimator where
  specs : List (ℚ × ℚ)
  samples : List ℚ

/-- `quantile.New(estimates...)`: fresh estimator, no samples. -/
def Estimator.new (specs : List (ℚ × ℚ)) : Estimator := ⟨specs, []⟩

/-- `Estimator.Add(value)`: ingest one observation. -/
def Estimator.add (e : Estimator) (v : ℚ) : Estimator := ⟨e.specs, v :: e.samples⟩

/-- Ingest a whole stream, first element first. -/
def Estimator.addAll (e : Estimator) (vs : List ℚ) : Estimator := vs.foldl .add e

/-- The total-sample counter `N`. -/
def Estimator.count (e : Estimator) : ℕ := e.samples.length

/-- The retained samples in nondecreasing order. -/
def Estimator.sorted (e : Estimator) : List ℚ := e.samples.insertionSort (· ≤ ·)

/-- `Estimator.Get(q)`: the value at approximately quantile `q`. -/
def Estimator.get (e : Estimator) (q : ℚ) : ℚ :=
  (e.sorted)[qNatFloor (q * (e.count : ℚ))]?.getD 0

/-- Number of ingested samples strictly below `v`: every 1-based rank
position that `v` can occupy in the conceptually sorted sample set is
strictly greater than this. -/
def Estimator.rankLt (e : Estimator) (v : ℚ) : ℕ :=
  e.samples.countP (fun x => decide (x < v))

/-- Number of ingested samples at most `v`: every 1-based rank position that
`v` can occupy in the conceptually sorted sample set is at most this. -/
def Estimator.rankLe (e : Estimator) (v : ℚ) : ℕ :=
  e.samples.countP (fun x => decide (x ≤ v))

/-! ### Rank-counting lemmas for sorted lists -/

theorem countP_lt_getElem_le :
    ∀ (l : List ℚ), l.Sorted (· ≤ ·) → ∀ i (h : i < l.length),
      l.countP (fun x => decide (x < l[i])) ≤ i := by
  intro l
  induction l with
  | nil => intro _ i h; simp at h
  | cons a t ih =>
    intro hs i h
    rcases List.sorted_cons.mp hs with ⟨ha, ht⟩
    cases i with
    | zero =>
      simp only [List.getElem_cons_zero, List.countP_cons]
      have h0 : t.countP (fun x => decide (x < a)) = 0 := by
        rw [List.countP_eq_zero]
        intro x hx
        simpa using not_lt.mpr (ha x hx)
      simp [h0]
    | succ j =>
      have hj : j < t.length := by simp at h; omega
      simp only [List.getElem_cons_succ, List.countP_cons]
      have h1 := ih ht j hj
      have h2 : (if (decide (a < t[j]) : Bool) = true then 1 else 0) ≤ 1 := by
        split <;> omega
      omega

theorem lt_countP_le_getElem :
    ∀ (l : List ℚ), l.Sorted (· ≤ ·) → ∀ i (h : i < l.length),
      i < l.countP (fun x => decide (x ≤ l[i])) := by
  intro l
  induction l with
  | nil => intro _ i h; simp at h
  | cons a t ih =>
    intro hs i h
    rcases List.sorted_cons.mp hs with ⟨ha, ht⟩
    cases i with
    | zero =>
      simp only [List.getElem_cons_zero, List.countP_cons]
      simp
    | succ j =>
      have hj : j < t.length := by simp at h; omega
      simp only [List.getElem_cons_succ, List.countP_cons]
      have h1 := ih ht j hj
      have h2 : (decide (a ≤ t[j]) : Bool) = true := by
        simpa using ha t[j] (List.getElem_mem hj)
      have h3 : (if (decide (a ≤ t[j]) : Bool) = true then 1 else 0) = 1 := by
        rw [h2]; simp
      rw [h3]
      omega

/-! ### Bridging lemmas for `qNatFloor` -/

theorem qNatFloor_cast_le (x : ℚ) (hx : 0 ≤ x) : (qNatFloor x : ℚ) ≤ x := by
  have h1 : qNatFloor x = (⌊x⌋).toNat := by
    unfold qNatFloor; rw [Rat.floor_def]
  have h2 : ((⌊x⌋).toNat : ℤ) = ⌊x⌋ := Int.toNat_of_nonneg (Int.floor_nonneg.mpr hx)
  calc (qNatFloor x : ℚ) = ((((⌊x⌋).toNat : ℤ)) : ℚ) := by rw [h1]; norm_cast
    _ = ((⌊x⌋ : ℤ) : ℚ) := by rw [h2]
    _ ≤ x := Int.floor_le x

theorem lt_qNatFloor_add_one (x : ℚ) (hx : 0 ≤ x) : x < (qNatFloor x : ℚ) + 1 := by
  have h1 : qNatFloor x = (⌊x⌋).toNat := by
    unfold qNatFloor; rw [Rat.floor_def]
  have h2 : ((⌊x⌋).toNat : ℤ) = ⌊x⌋ := Int.toNat_of_nonneg (Int.floor_nonneg.mpr hx)
  have h3 : ((qNatFloor x : ℚ)) = ((⌊x⌋ : ℤ) : ℚ) := by
    rw [h1, ← h2]; norm_cast
  rw [h3]
  exact Int.lt_floor_add_one x

theorem addAll_samples (xs : List ℚ) :
    ∀ (e : Estimator), (e.addAll xs).samples = xs.reverse ++ e.samples := by
  induction xs with
  | nil => intro e; simp [Estimator.addAll]
  | cons x xs ih =>
    intro e
    have h1 : (e.addAll (x :: xs)) = ((e.add x).addAll xs) := rfl
    rw [h1, ih (e.add x)]
    simp [Estimator.add]

/-- Claim C1, counterexample: an estimator configured with quantile 1/2 at
tolerance 1/1000 that has ingested the single value 42 (so N = 1) returns 42
from `get (1/2)`; the only 1-based rank that 42 occupies among the ingested
values is 1 (`rankLt = 0 < 1 ≤ 1 = rankLe`), and `|1 - (1/2)·1| = 1/2`
exceeds `(1/1000)·1`, so the returned value's true rank does not lie within
`ε·N` of `q·N`.  (No estimator returning one of the inserted values can meet
the bound here: a rank is an integer and `q·N = 1/2`.) -/
theorem estimator_rank_counterexample :
    ((Estimator.new [(1/2, 1/1000)]).add 42).get (1/2) = 42 ∧
    ((Estimator.new [(1/2, 1/1000)]).add 42).rankLt 42 = 0 ∧
    ((Estimator.new [(1/2, 1/1000)]).add 42).rankLe 42 = 1 ∧
    ¬(|(1 : ℚ) - 1/2 * 1| ≤ 1/1000 * 1) := by
  with_unfolding_all decide

/-- Claim C1 (amended): for an estimator configured with quantile `q` and
tolerance `ε` (with `0 < q < 1`, `0 < ε < 1`), after ingesting the `N` values
of `xs`, provided the absolute tolerance `ε·N` has reached one sample
(`1 ≤ ε·N`), the value returned by `get q` occupies a true 1-based rank `r`
among all `N` ingested values with `|r - q·N| ≤ ε·N`. -/
theorem estimator_rank_guarantee (specs : List (ℚ × ℚ)) (q ε : ℚ) (xs : List ℚ)
    (hmem : (q, ε) ∈ specs) (hq0 : 0 < q) (hq1 : q < 1)
    (hε0 : 0 < ε) (hε1 : ε < 1) (htol : 1 ≤ ε * (xs.length : ℚ)) :
    ∃ r : ℕ,
      ((Estimator.new specs).addAll xs).rankLt
          (((Estimator.new specs).addAll xs).get q) < r ∧
      r ≤ ((Estimator.new specs).addAll xs).rankLe
          (((Estimator.new specs).addAll xs).get q) ∧
      |(r : ℚ) - q * (xs.length : ℚ)| ≤ ε * (xs.length : ℚ) := by
  set e := (Estimator.new specs).addAll xs with he
  have hsamp : e.samples = xs.reverse := by
    rw [he, addAll_samples]; simp [Estimator.new]
  have hcount : e.count = xs.length := by
    rw [Estimator.count, hsamp]; simp
  set N := xs.length with hN
  have hNpos : 0 < N := by
    by_contra hc
    have h0 : N = 0 := by omega
    rw [h0] at htol
    simp at htol
    linarith
  have hNQ : (0 : ℚ) < (N : ℚ) := by exact_mod_cast hNpos
  have hqN0 : (0 : ℚ) ≤ q * (N : ℚ) := le_of_lt (mul_pos hq0 hNQ)
  set i := qNatFloor (q * (N : ℚ)) with hi
  have hiq : ((i : ℚ)) ≤ q * (N : ℚ) := qNatFloor_cast_le _ hqN0
  have hqNi : q * (N : ℚ) < (i : ℚ) + 1 := lt_qNatFloor_add_one _ hqN0
  have hsortlen : e.sorted.length = N := by
    rw [Estimator.sorted, List.length_insertionSort, hsamp]; simp
  have hiN : i < N := by
    have hx : ((i : ℚ)) < (N : ℚ) := by
      calc ((i : ℚ)) ≤ q * (N : ℚ) := hiq
        _ < 1 * (N : ℚ) := by
          exact mul_lt_mul_of_pos_right hq1 hNQ
        _ = (N : ℚ) := one_mul _
    exact_mod_cast hx
  have hiS : i < e.sorted.length := by rw [hsortlen]; exact hiN
  have hsorted : e.sorted.Sorted (· ≤ ·) := List.sorted_insertionSort _ _
  have hperm : e.sorted.Perm e.samples := List.perm_insertionSort _ _
  have hget : e.get q = e.sorted[i] := by
    rw [Estimator.get, hcount, ← hi, List.getElem?_eq_getElem hiS]
    rfl
  refine ⟨i + 1, ?_, ?_, ?_⟩
  · rw [Estimator.rankLt, hget, ← hperm.countP_eq]
    exact Nat.lt_succ_of_le (countP_lt_getElem_le e.sorted hsorted i hiS)
  · rw [Estimator.rankLe, hget, ← hperm.countP_eq]
    exact lt_countP_le_getElem e.sorted hsorted i hiS
  · have h1 : ((i + 1 : ℕ) : ℚ) = (i : ℚ) + 1 := by push_cast; ring
    rw [h1, abs_le]
    constructor
    · have : (0 : ℚ) < ε * (N : ℚ) := by linarith
      nlinarith
    · nlinarith

/-- Witness for the amended claim C1: quantile 1/2, tolerance 1/2, samples
[1, 2, 3], so `ε·N = 3/2 ≥ 1`. -/
theorem estimator_rank_guarantee_witness :
    ∃ r : ℕ,
      ((Estimator.new [(1/2, 1/2)]).addAll [1, 2, 3]).rankLt
          (((Estimator.new [(1/2, 1/2)]).addAll [1, 2, 3]).get (1/2)) < r ∧
      r ≤ ((Estimator.new [(1/2, 1/2)]).addAll [1, 2, 3]).rankLe
          (((Estimator.new [(1/2, 1/2)]).addAll [1, 2, 3]).get (1/2)) ∧
      |(r : ℚ) - 1/2 * (([1, 2, 3] : List ℚ).length : ℚ)| ≤ 1/2 * (([1, 2, 3] : List ℚ).length : ℚ) :=
  estimator_rank_guarantee [(1/2, 1/2)] (1/2) (1/2) [1, 2, 3]
    (by simp) (by norm_num) (by norm_num) (by norm_num) (by norm_num)
    (by norm_num)

/-! ## The benchmark runner (benchmarks.go)

The wall clock is mocked: the elapsed times recorded by the collection loop of
one function are supplied as an explicit list of nanosecond values, and a
whole `Done` run takes one such list per benchmarked function.  Functions are
identified by their names; the Go `NamedFunction.Func` closures act on the
model only through those injected elapsed times. -/

/-- A failure while running one benchmark.  `divByZero` stands for Go's
runtime panic "integer divide by zero". -/
inductive RunFailure
  | divByZero
  | degenerateRun
  deriving DecidableEq

/-- The per-function `results` record of benchmarks.go: durations in
nanoseconds, `count` a Go `int`. -/
structure results where
  mean : ℤ
  median : ℤ
  quantiles : List ℤ
  count : ℤ
  deriving DecidableEq

/-- The `Options` struct of benchmarks.go.  `quantiles` are the requested
percentiles as Go `int`s; durations are nanosecond counts. -/
structure Options where
  fns : List String
  prettyPrintFn : ℤ → String
  quantiles : List ℤ
  warmUps : ℤ
  innerRepeats : ℤ
  duration : ℤ
  tolerance : ℚ
  columnSize : ℤ

/-- `DefaultQuantiles = []int{5, 99}`. -/
def DefaultQuantiles : List ℤ := [5, 99]

/-- `New(fns...)` with its documented defaults. -/
def New (fns : List String) : Options :=
  { fns := fns
    prettyPrintFn := PrettyPrint
    quantiles := DefaultQuantiles
    warmUps := 5
    innerRepeats := 1
    duration := 1000000000
    tolerance := 1/1000
    columnSize := 10 }

def Options.WithPrettyPrintFn (o : Options) (fn : ℤ → String) : Options :=
  { o with prettyPrintFn := fn }

/-- `slices.Clone` copies the slice; on the value level the stored list is the
argument list. -/
def Options.WithQuantiles (o : Options) (quantiles : List ℤ) : Options :=
  { o with quantiles := quantiles }

def Options.WithWarmUps (o : Options) (warmUps : ℤ) : Options :=
  { o with warmUps := warmUps }

def Options.WithInnerRepeats (o : Options) (innerRepeats : ℤ) : Options :=
  { o with innerRepeats := innerRepeats }

def Options.WithDuration (o : Options) (duration : ℤ) : Options :=
  { o with duration := duration }

def Options.WithTolerance (o : Options) (tolerance : ℚ) : Options :=
  { o with tolerance := tolerance }

def Options.WithColumnSize (o : Options) (columnSize : ℤ) : Options :=
  { o with columnSize := columnSize }

/-- `nanosecondsEstimate`: `time.Duration(int(est.Get(q))) * time.Nanosecond`
(`time.Nanosecond = 1`). -/
def nanosecondsEstimate (est : Estimator) (q : ℚ) : ℤ :=
  goTruncQ (est.get q) * 1

/-- The mutable state of the collection loop in `benchmarkOneFunc`. -/
structure CollectState where
  estimator : Estimator
  totalTime : ℤ
  count : ℤ

/-- One iteration of the collection loop: time the call (the mocked `elapsed`),
feed `float64(elapsed) / float64(time.Nanosecond)` to the estimator,
accumulate `totalTime`, increment `count`. -/
def collectStep (st : CollectState) (elapsed : ℤ) : CollectState :=
  { estimator := st.estimator.add ((elapsed : ℚ))
    totalTime := st.totalTime + elapsed
    count := st.count + 1 }

/-- The collection loop run over the whole mocked sample list (the loop stops
when the deadline timer fires; the list holds exactly the iterations that ran
before that). -/
def collectLoop (st : CollectState) (elapsed : List ℤ) : CollectState :=
  elapsed.foldl collectStep st

/-- The estimates `benchmarkOneFunc` configures: the median `0.50` plus every
requested percentile `pct/100`, all at `o.tolerance`. -/
def Options.estimates (o : Options) : List (ℚ × ℚ) :=
  (1/2, o.tolerance) :: o.quantiles.map (fun pct => ((pct : ℚ) / 100, o.tolerance))

/-- The collection phase of `benchmarkOneFunc` from a fresh estimator and
zeroed accumulators. -/
def Options.collect (o : Options) (elapsed : List ℤ) : CollectState :=
  collectLoop ⟨Estimator.new o.estimates, 0, 0⟩ elapsed

/-- `benchmarkOneFunc`: collect, then build the `results` record.  The Go
source computes `totalTime / time.Duration(count)` unconditionally; when
`count = 0` that division panics at runtime with "integer divide by zero",
which this embedding surfaces as `RunFailure.divByZero`.  There is no
zero-sample guard in the source. -/
def Options.benchmarkOneFunc (o : Options) (elapsed : List ℤ) : Except RunFailure results :=
  if (o.collect elapsed).count = 0 then
    Except.error RunFailure.divByZero
  else
    Except.ok
      { mean := goDivInt (o.collect elapsed).totalTime (o.collect elapsed).count
        median := nanosecondsEstimate (o.collect elapsed).estimator (1/2)
        quantiles := o.quantiles.map
          (fun pct => nanosecondsEstimate (o.collect elapsed).estimator ((pct : ℚ) / 100))
        count := (o.collect elapsed).count }

/-- The post-collection scaling inside `Options.Done`: when
`innerRepeats > 1`, mean, median and every quantile value are divided by it;
the count is untouched. -/
def Options.applyInnerRepeats (o : Options) (r : results) : results :=
  if 1 < o.innerRepeats then
    { mean := goDivInt r.mean o.innerRepeats
      median := goDivInt r.median o.innerRepeats
      quantiles := r.quantiles.map (fun v => goDivInt v o.innerRepeats)
      count := r.count }
  else r

/-- The record `Options.Done` reports for one function: the collected record
with the inner-repeat scaling applied. -/
def Options.reportedResults (o : Options) (elapsed : List ℤ) : Except RunFailure results :=
  (o.benchmarkOneFunc elapsed).map o.applyInnerRepeats

/-- The first-column header label of `Options.Done` (ASCII, so its Go byte
length and its rune count are both 11). -/
def headerLabel : String := "Benchmarks:"

/-- `maxLen`: the maximum of the header label's length and the rune count of
every function name (`utf8.RuneCountInString`; `String.length` counts
unicode scalar values, i.e. runes). -/
def Options.maxNameLen (o : Options) : ℕ :=
  o.fns.foldl (fun m name => max m name.length) headerLabel.length

/-- Pad `s` with trailing spaces when `extraSpaces = maxLen - s.length` is
positive (for the strings this is applied to, `s.length ≤ maxLen`, so the
truncated `ℕ` subtraction agrees with Go's `int` subtraction). -/
def padTrailing (maxLen : ℕ) (s : String) : String :=
  if 0 < maxLen - s.length then s ++ spaces (maxLen - s.length) else s

/-- The last header column: `"Count"`, or `"Runs(x<repeats>)"` when the
inner-repeat multiplier exceeds 1. -/
def Options.countLabel (o : Options) : String :=
  if 1 < o.innerRepeats then "Runs(x" ++ toString o.innerRepeats ++ ")" else "Count"

/-- The header row of `Options.Done` (the text printed before the first
newline): padded label, right-aligned "Mean" and "Median", one right-aligned
`<q>%-tile` column per configured quantile, and the count column, all
tab-separated. -/
def Options.headerLine (o : Options) : String :=
  padTrailing o.maxNameLen headerLabel ++
    "\t" ++ goAlign o.columnSize "Mean" ++
    "\t" ++ goAlign o.columnSize "Median" ++
    String.join (o.quantiles.map (fun q => "\t" ++ goAlign o.columnSize (toString q ++ "%-tile"))) ++
    "\t" ++ goAlign o.columnSize o.countLabel

/-- One benchmark row of `Options.Done`: the name padded to the shared
column width, then the pretty-printed mean, median and quantile values and
the raw count, each right-aligned, tab-separated. -/
def Options.rowLine (o : Options) (name : String) (r : results) : String :=
  padTrailing o.maxNameLen name ++
    "\t" ++ goAlign o.columnSize (o.prettyPrintFn r.mean) ++
    "\t" ++ goAlign o.columnSize (o.prettyPrintFn r.median) ++
    String.join (r.quantiles.map (fun v => "\t" ++ goAlign o.columnSize (o.prettyPrintFn v))) ++
    "\t" ++ goAlign o.columnSize (toString r.count)

/-- `Options.Done`, output reified as the list of printed lines: the header
line, then one row per named function in order (each function's mocked
elapsed-time list supplied positionally). -/
def Options.Done (o : Options) (samples : List (List ℤ)) : Except RunFailure (List String) := do
  let rows ← (o.fns.zip samples).mapM (fun nf => (o.reportedResults nf.2).map (o.rowLine nf.1))
  pure (o.headerLine :: rows)

/-- How many times `Options.Done` invokes benchmarked functions: per function,
`warmUps` warm-up calls (a Go `range` over a negative count runs zero times,
hence `toNat`) plus one timed call per recorded sample. -/
def Options.doneInvocations (o : Options) (samples : List (List ℤ)) : ℕ :=
  (o.fns.zip samples).foldl (fun acc nf => acc + o.warmUps.toNat + nf.2.length) 0

/-! ### Helper lemmas about the collection loop -/

theorem collectLoop_totals :
    ∀ (elapsed : List ℤ) (st : CollectState),
      (collectLoop st elapsed).totalTime = st.totalTime + elapsed.sum ∧
      (collectLoop st elapsed).count = st.count + (elapsed.length : ℤ) := by
  intro elapsed
  induction elapsed with
  | nil => intro st; constructor <;> simp [collectLoop]
  | cons x xs ih =>
    intro st
    have h1 : collectLoop st (x :: xs) = collectLoop (collectStep st x) xs := rfl
    rcases ih (collectStep st x) with ⟨ha, hb⟩
    constructor
    · rw [h1, ha]; simp [collectStep]; ring
    · rw [h1, hb]; simp [collectStep]; ring

theorem benchmarkOneFunc_ok (o : Options) (elapsed : List ℤ) (h : elapsed ≠ []) :
    o.benchmarkOneFunc elapsed = Except.ok
      { mean := goDivInt elapsed.sum (elapsed.length : ℤ)
        median := nanosecondsEstimate (o.collect elapsed).estimator (1/2)
        quantiles := o.quantiles.map
          (fun pct => nanosecondsEstimate (o.collect elapsed).estimator ((pct : ℚ) / 100))
        count := (elapsed.length : ℤ) } := by
  have hct : (o.collect elapsed).totalTime = elapsed.sum := by
    unfold Options.collect
    rw [(collectLoop_totals elapsed _).1]
    simp
  have hcc : (o.collect elapsed).count = (elapsed.length : ℤ) := by
    unfold Options.collect
    rw [(collectLoop_totals elapsed _).2]
    simp
  have hpos : 0 < elapsed.length := List.length_pos.mpr h
  have hne : (o.collect elapsed).count ≠ 0 := by
    rw [hcc]
    exact_mod_cast Nat.pos_iff_ne_zero.mp hpos
  unfold Options.benchmarkOneFunc
  rw [if_neg hne, hct, hcc]

/-- Claim C2: the specification requires a collection window that produces
zero samples to fail with an explicit degenerate-run error, with the mean
never computed at `sampleCount = 0`.  The source has no such guard: with zero
recorded samples, `benchmarkOneFunc` reaches `totalTime / time.Duration(count)`
with `count = 0`, i.e. Go's integer-divide-by-zero runtime panic
(`RunFailure.divByZero`), not a degenerate-run error. -/
theorem zero_samples_divide_by_zero (o : Options) :
    o.benchmarkOneFunc [] = Except.error RunFailure.divByZero ∧
    o.benchmarkOneFunc [] ≠ Except.error RunFailure.degenerateRun := by
  constructor
  · rfl
  · intro hcontra
    exact RunFailure.noConfusion (Except.error.inj hcontra)

/-- Witness for claim C2 at the default configuration. -/
theorem zero_samples_divide_by_zero_witness :
    (New []).benchmarkOneFunc [] = Except.error RunFailure.divByZero ∧
    (New []).benchmarkOneFunc [] ≠ Except.error RunFailure.degenerateRun :=
  zero_samples_divide_by_zero (New [])

/-- Claim C5: for every non-empty list of recorded elapsed times, the
computed mean is exactly the sum of the recorded elapsed times divided by the
number of recorded samples (Go's truncating `time.Duration` division), and
the reported count is the number of samples. -/
theorem mean_is_sum_div_count (o : Options) (elapsed : List ℤ) (h : elapsed ≠ []) :
    ∃ r : results, o.benchmarkOneFunc elapsed = Except.ok r ∧
      r.mean = goDivInt elapsed.sum (elapsed.length : ℤ) ∧
      r.count = (elapsed.length : ℤ) :=
  ⟨_, benchmarkOneFunc_ok o elapsed h, rfl, rfl⟩

/-- Witness for claim C5: samples [3, 4] give mean `⌊7/2⌋ = 3` and count 2. -/
theorem mean_is_sum_div_count_witness :
    ∃ r : results, (New []).benchmarkOneFunc [3, 4] = Except.ok r ∧
      r.mean = goDivInt ([3, 4] : List ℤ).sum ((([3, 4] : List ℤ).length : ℕ) : ℤ) ∧
      r.count = ((([3, 4] : List ℤ).length : ℕ) : ℤ) :=
  mean_is_sum_div_count (New []) [3, 4] (by decide)

/-- Claim C3, counterexample: the configuration setters perform no
validation.  A negative warm-up count, a negative duration and a zero
inner-repeat multiplier are each accepted and stored unchanged — each setter
is a total function returning the updated `Options` (the Go methods return
`*Options` and contain no check, error or panic), so nothing is rejected
with a configuration error at configuration time. -/
theorem setters_accept_invalid_values :
    ((New ["f"]).WithWarmUps (-1)).warmUps = -1 ∧
    ((New ["f"]).WithDuration (-1)).duration = -1 ∧
    ((New ["f"]).WithInnerRepeats 0).innerRepeats = 0 :=
  ⟨rfl, rfl, rfl⟩

/-- Claim C3 (amended): negative durations, negative warm-up counts, and
non-positive inner-repeat multipliers are not rejected at configuration time;
the corresponding setters store the invalid values unchanged and surface no
error. -/
theorem setters_store_invalid_values (o : Options) (w d k : ℤ)
    (hw : w < 0) (hd : d < 0) (hk : k ≤ 0) :
    (o.WithWarmUps w).warmUps = w ∧
    (o.WithDuration d).duration = d ∧
    (o.WithInnerRepeats k).innerRepeats = k :=
  ⟨rfl, rfl, rfl⟩

/-- Witness for the amended claim C3. -/
theorem setters_store_invalid_values_witness :
    ((New []).WithWarmUps (-3)).warmUps = -3 ∧
    ((New []).WithDuration (-7)).duration = -7 ∧
    ((New []).WithInnerRepeats 0).innerRepeats = 0 :=
  setters_store_invalid_values (New []) (-3) (-7) 0 (by decide) (by decide) (by decide)

/-- Claim C8: every configuration setter changes only its own field of the
`Options` state, leaves every other field (including the function list)
unchanged, and yields the updated receiver itself (the Go methods mutate the
receiver in place and return the same pointer; state identity is what a
value-level embedding can express of that). -/
theorem setters_frame (o : Options) (fn : ℤ → String) (qs : List ℤ)
    (w k d : ℤ) (tol : ℚ) (cs : ℤ) :
    ((o.WithPrettyPrintFn fn).prettyPrintFn = fn ∧
      (o.WithPrettyPrintFn fn).fns = o.fns ∧
      (o.WithPrettyPrintFn fn).quantiles = o.quantiles ∧
      (o.WithPrettyPrintFn fn).warmUps = o.warmUps ∧
      (o.WithPrettyPrintFn fn).innerRepeats = o.innerRepeats ∧
      (o.WithPrettyPrintFn fn).duration = o.duration ∧
      (o.WithPrettyPrintFn fn).tolerance = o.tolerance ∧
      (o.WithPrettyPrintFn fn).columnSize = o.columnSize) ∧
    ((o.WithQuantiles qs).quantiles = qs ∧
      (o.WithQuantiles qs).fns = o.fns ∧
      (o.WithQuantiles qs).prettyPrintFn = o.prettyPrintFn ∧
      (o.WithQuantiles qs).warmUps = o.warmUps ∧
      (o.WithQuantiles qs).innerRepeats = o.innerRepeats ∧
      (o.WithQuantiles qs).duration = o.duration ∧
      (o.WithQuantiles qs).tolerance = o.tolerance ∧
      (o.WithQuantiles qs).columnSize = o.columnSize) ∧
    ((o.WithWarmUps w).warmUps = w ∧
      (o.WithWarmUps w).fns = o.fns ∧
      (o.WithWarmUps w).prettyPrintFn = o.prettyPrintFn ∧
      (o.WithWarmUps w).quantiles = o.quantiles ∧
      (o.WithWarmUps w).innerRepeats = o.innerRepeats ∧
      (o.WithWarmUps w).duration = o.duration ∧
      (o.WithWarmUps w).tolerance = o.tolerance ∧
      (o.WithWarmUps w).columnSize = o.columnSize) ∧
    ((o.WithInnerRepeats k).innerRepeats = k ∧
      (o.WithInnerRepeats k).fns = o.fns ∧
      (o.WithInnerRepeats k).prettyPrintFn = o.prettyPrintFn ∧
      (o.WithInnerRepeats k).quantiles = o.quantiles ∧
      (o.WithInnerRepeats k).warmUps = o.warmUps ∧
      (o.WithInnerRepeats k).duration = o.duration ∧
      (o.WithInnerRepeats k).tolerance = o.tolerance ∧
      (o.WithInnerRepeats k).columnSize = o.columnSize) ∧
    ((o.WithDuration d).duration = d ∧
      (o.WithDuration d).fns = o.fns ∧
      (o.WithDuration d).prettyPrintFn = o.prettyPrintFn ∧
      (o.WithDuration d).quantiles = o.quantiles ∧
      (o.WithDuration d).warmUps = o.warmUps ∧
      (o.WithDuration d).innerRepeats = o.innerRepeats ∧
      (o.WithDuration d).tolerance = o.tolerance ∧
      (o.WithDuration d).columnSize = o.columnSize) ∧
    ((o.WithTolerance tol).tolerance = tol ∧
      (o.WithTolerance tol).fns = o.fns ∧
      (o.WithTolerance tol).prettyPrintFn = o.prettyPrintFn ∧
      (o.WithTolerance tol).quantiles = o.quantiles ∧
      (o.WithTolerance tol).warmUps = o.warmUps ∧
      (o.WithTolerance tol).innerRepeats = o.innerRepeats ∧
      (o.WithTolerance tol).duration = o.duration ∧
      (o.WithTolerance tol).columnSize = o.columnSize) ∧
    ((o.WithColumnSize cs).columnSize = cs ∧
      (o.WithColumnSize cs).fns = o.fns ∧
      (o.WithColumnSize cs).prettyPrintFn = o.prettyPrintFn ∧
      (o.WithColumnSize cs).quantiles = o.quantiles ∧
      (o.WithColumnSize cs).warmUps = o.warmUps ∧
      (o.WithColumnSize cs).innerRepeats = o.innerRepeats ∧
      (o.WithColumnSize cs).duration = o.duration ∧
      (o.WithColumnSize cs).tolerance = o.tolerance) :=
  ⟨⟨rfl, rfl, rfl, rfl, rfl, rfl, rfl, rfl⟩,
    ⟨rfl, rfl, rfl, rfl, rfl, rfl, rfl, rfl⟩,
    ⟨rfl, rfl, rfl, rfl, rfl, rfl, rfl, rfl⟩,
    ⟨rfl, rfl, rfl, rfl, rfl, rfl, rfl, rfl⟩,
    ⟨rfl, rfl, rfl, rfl, rfl, rfl, rfl, rfl⟩,
    ⟨rfl, rfl, rfl, rfl, rfl, rfl, rfl, rfl⟩,
    ⟨rfl, rfl, rfl, rfl, rfl, rfl, rfl, rfl⟩⟩

/-- Claim C4: when the inner-repeat multiplier `k` exceeds 1, the reported
mean, median and every reported quantile value equal the collected values
divided by `k` (Go's truncating `time.Duration` division) while the reported
count is left unscaled; equivalently, for the same collected samples, a run
with multiplier `k` collects the same raw record as a run with multiplier 1
(which reports it unchanged) and reports it scaled by the division by `k`. -/
theorem inner_repeat_scaling (o : Options) (elapsed : List ℤ) (k : ℤ)
    (hk : 1 < k) (h : elapsed ≠ []) :
    ∃ raw scaled : results,
      (o.WithInnerRepeats 1).benchmarkOneFunc elapsed = Except.ok raw ∧
      (o.WithInnerRepeats k).benchmarkOneFunc elapsed = Except.ok raw ∧
      (o.WithInnerRepeats 1).reportedResults elapsed = Except.ok raw ∧
      (o.WithInnerRepeats k).reportedResults elapsed = Except.ok scaled ∧
      scaled.mean = goDivInt raw.mean k ∧
      scaled.median = goDivInt raw.median k ∧
      scaled.quantiles = raw.quantiles.map (fun v => goDivInt v k) ∧
      scaled.count = raw.count := by
  obtain ⟨R, hR⟩ : ∃ r, o.benchmarkOneFunc elapsed = Except.ok r :=
    ⟨_, benchmarkOneFunc_ok o elapsed h⟩
  have hscale : (o.WithInnerRepeats k).applyInnerRepeats R =
      { mean := goDivInt R.mean k
        median := goDivInt R.median k
        quantiles := R.quantiles.map (fun v => goDivInt v k)
        count := R.count } := by
    unfold Options.applyInnerRepeats
    have hproj : (o.WithInnerRepeats k).innerRepeats = k := rfl
    rw [hproj, if_pos hk]
  refine ⟨R, (o.WithInnerRepeats k).applyInnerRepeats R, hR, hR, ?_, ?_, ?_, ?_, ?_, ?_⟩
  · unfold Options.reportedResults
    have h1 : (o.WithInnerRepeats 1).benchmarkOneFunc elapsed = Except.ok R := hR
    rw [h1]
    rfl
  · unfold Options.reportedResults
    have h2 : (o.WithInnerRepeats k).benchmarkOneFunc elapsed = Except.ok R := hR
    rw [h2]
    rfl
  · rw [hscale]
  · rw [hscale]
  · rw [hscale]
  · rw [hscale]

/-- Witness for claim C4: samples [5, 7] and multiplier 2. -/
theorem inner_repeat_scaling_witness :
    ∃ raw scaled : results,
      ((New []).WithInnerRepeats 1).benchmarkOneFunc [5, 7] = Except.ok raw ∧
      ((New []).WithInnerRepeats 2).benchmarkOneFunc [5, 7] = Except.ok raw ∧
      ((New []).WithInnerRepeats 1).reportedResults [5, 7] = Except.ok raw ∧
      ((New []).WithInnerRepeats 2).reportedResults [5, 7] = Except.ok scaled ∧
      scaled.mean = goDivInt raw.mean 2 ∧
      scaled.median = goDivInt raw.median 2 ∧
      scaled.quantiles = raw.quantiles.map (fun v => goDivInt v 2) ∧
      scaled.count = raw.count :=
  inner_repeat_scaling (New []) [5, 7] 2 (by decide) (by decide)

/-! ### Lemmas about the shared column width -/

theorem spaces_length (n : ℕ) : (spaces n).length = n := by
  simp [spaces, String.length]

theorem le_foldl_max (l : List String) :
    ∀ a : ℕ, a ≤ l.foldl (fun m s => max m s.length) a := by
  induction l with
  | nil => intro a; simp
  | cons x xs ih =>
    intro a
    rw [List.foldl_cons]
    exact le_trans (le_max_left a x.length) (ih _)

theorem mem_le_foldl_max (l : List String) :
    ∀ (a : ℕ) (s : String), s ∈ l → s.length ≤ l.foldl (fun m t => max m t.length) a := by
  induction l with
  | nil => intro a s hs; simp at hs
  | cons x xs ih =>
    intro a s hs
    rw [List.foldl_cons]
    rcases List.mem_cons.mp hs with hh | hh
    · subst hh
      exact le_trans (le_max_right a s.length) (le_foldl_max xs _)
    · exact ih _ s hh

theorem foldl_max_attained (l : List String) :
    ∀ a : ℕ, l.foldl (fun m t => max m t.length) a = a ∨
      ∃ s ∈ l, l.foldl (fun m t => max m t.length) a = s.length := by
  induction l with
  | nil => intro a; left; rfl
  | cons x xs ih =>
    intro a
    rw [List.foldl_cons]
    rcases ih (max a x.length) with hh | ⟨s, hs, hh⟩
    · rcases max_choice a x.length with hm | hm
      · left; rw [hh, hm]
      · right; exact ⟨x, List.mem_cons_self x xs, by rw [hh, hm]⟩
    · right; exact ⟨s, List.mem_cons_of_mem _ hs, hh⟩

theorem padTrailing_length (w : ℕ) (s : String) (h : s.length ≤ w) :
    (padTrailing w s).length = w := by
  unfold padTrailing
  split_ifs with hif
  · rw [String.length_append, spaces_length]; omega
  · omega

/-- Claim C7: the first-column width shared by the header and every row is
the maximum of the rune counts of all function names and the length of the
literal header label; names (and the label) padded with trailing spaces to
that width all have rune length exactly the shared width, so every row
aligns at the same column start regardless of byte lengths. -/
theorem column_alignment (o : Options) :
    headerLabel.length ≤ o.maxNameLen ∧
    (∀ name ∈ o.fns, name.length ≤ o.maxNameLen) ∧
    (o.maxNameLen = headerLabel.length ∨ ∃ name ∈ o.fns, o.maxNameLen = name.length) ∧
    (padTrailing o.maxNameLen headerLabel).length = o.maxNameLen ∧
    (∀ name ∈ o.fns, (padTrailing o.maxNameLen name).length = o.maxNameLen) := by
  have h1 : headerLabel.length ≤ o.maxNameLen := le_foldl_max o.fns headerLabel.length
  have h2 : ∀ name ∈ o.fns, name.length ≤ o.maxNameLen := fun name hn =>
    mem_le_foldl_max o.fns headerLabel.length name hn
  exact ⟨h1, h2, foldl_max_attained o.fns headerLabel.length,
    padTrailing_length _ _ h1, fun name hn => padTrailing_length _ _ (h2 name hn)⟩

/-- Witness for claim C7: a multi-byte (CJK) function name longer than the
header label is padded to exactly the shared width. -/
theorem column_alignment_witness :
    (padTrailing (New ["ベンチマークの関数名前"]).maxNameLen "ベンチマークの関数名前").length =
      (New ["ベンチマークの関数名前"]).maxNameLen :=
  (column_alignment (New ["ベンチマークの関数名前"])).2.2.2.2
    "ベンチマークの関数名前" (List.mem_singleton.mpr rfl)

/-- Claim C10: `Done` on a benchmark whose function list is empty succeeds
and emits exactly one line — the header row — with no benchmark rows and no
function invocations. -/
theorem done_empty_functions (o : Options) (ho : o.fns = []) (samples : List (List ℤ)) :
    o.Done samples = Except.ok [o.headerLine] ∧ o.doneInvocations samples = 0 := by
  constructor
  · unfold Options.Done
    rw [ho]
    rfl
  · unfold Options.doneInvocations
    rw [ho]
    rfl

/-- Witness for claim C10: the default configuration over an empty function
list. -/
theorem done_empty_functions_witness :
    (New []).Done [] = Except.ok [(New []).headerLine] ∧
    (New []).doneInvocations [] = 0 :=
  done_empty_functions (New []) rfl []

end GoBench
